import Mathlib

/-!
Verification of the lion-os operations layer (brainstorm / plan / select),
the `FunctionCalling.invoke` action, and `System.update`, against a shallow
embedding of the Python sources.

Conventions of the embedding:
* Python objects are modelled by inductive types; machine state that the
  operations mutate (the session's branch registry and the observable call
  trace) is threaded explicitly through a `World`.
* The external LLM collaborator `branch.operate` is modelled by an `Oracle`
  mapping the dispatched instruction to the structured result the branch
  produces; the theorems quantify over the oracle.
* The concurrent fan-out `alcall(instructs, run)` gathers results preserving
  input order (documented scatter-gather semantics), so it is embedded as an
  order-preserving traversal threading the world left to right.
-/

namespace LionOS

/-- An `InstructModel`: the fields that matter to the control flow are an
identity and the guidance string (which brainstorm/plan prepend a prompt to).
`model_dump`/`clean_dump` convert it to a keyword dict carrying the same
fields, so the dict form is represented by the same structure. -/
structure Instruct where
  iid : Nat
  guidance : String
deriving Repr, DecidableEq

/-- A structured operate result.  `instruct_models = none` models an object
without the `instruct_models` attribute (the `hasattr` probe fails);
`some l` models the attribute holding the list `l`. -/
structure OpRes where
  rid : Nat
  instruct_models : Option (List Instruct)
deriving Repr, DecidableEq

/-- A Python value returned by the runners: either a structured operate
result or a Python list of such values (`isinstance(res, list)` probing). -/
inductive PyVal where
  | res (r : OpRes)
  | list (xs : List PyVal)
deriving Repr

/-- Observable events of a run, in program order: branch creation
(`session.new_branch`), branch forking (`session.split`), an
`branch.operate(...)` call, and a `branch.msgs.logger.dump()` flush. -/
inductive Event where
  | newBranch (bid : Nat)
  | split (src : Nat) (bid : Nat)
  | operate (bid : Nat) (ins : Instruct)
  | dump (bid : Nat)
deriving Repr, DecidableEq

/-- The session's branch registry: member branch ids in insertion order plus
a fresh-id counter (Python uses UUIDs; freshness is what matters). -/
structure Session where
  branches : List Nat
  nextId : Nat
deriving Repr, DecidableEq

instance : Inhabited Session := ⟨⟨[], 0⟩⟩

/-- The mutable state threaded through a run: the session and the trace of
observable events so far. -/
structure World where
  session : Session
  trace : List Event
deriving Repr, DecidableEq

/-- `session.new_branch(**branch_kwargs)`: allocate a fresh branch id and
register it. -/
def newBranch (w : World) : Nat × World :=
  let b := w.session.nextId
  (b, { session := { branches := w.session.branches ++ [b], nextId := b + 1 },
        trace := w.trace ++ [.newBranch b] })

/-- `session.split(branch)`: fork `src`, register the fork, return it. -/
def splitBranch (src : Nat) (w : World) : Nat × World :=
  let b := w.session.nextId
  (b, { session := { branches := w.session.branches ++ [b], nextId := b + 1 },
        trace := w.trace ++ [.split src b] })

/-- The external collaborator `branch.operate`: the structured result it
produces for a dispatched instruction. -/
def Oracle : Type := Instruct → OpRes

/-- Number of `operate` events in a trace. -/
def countOp : List Event → Nat
  | [] => 0
  | .operate _ _ :: r => countOp r + 1
  | _ :: r => countOp r

/-- Number of `dump` events in a trace. -/
def countDump : List Event → Nat
  | [] => 0
  | .dump _ :: r => countDump r + 1
  | _ :: r => countDump r

/-- Number of `split` (fork) events in a trace. -/
def countSplit : List Event → Nat
  | [] => 0
  | .split _ _ :: r => countSplit r + 1
  | _ :: r => countSplit r

/-- operate-minus-dump balance of a trace, in `ℤ`. -/
def opBalance : List Event → Int
  | [] => 0
  | .operate _ _ :: r => opBalance r + 1
  | .dump _ :: r => opBalance r - 1
  | _ :: r => opBalance r

theorem countOp_append (a b : List Event) : countOp (a ++ b) = countOp a + countOp b := by
  induction a with
  | nil => simp [countOp]
  | cons e r ih => cases e <;> simp [countOp, ih] <;> omega

theorem countDump_append (a b : List Event) :
    countDump (a ++ b) = countDump a + countDump b := by
  induction a with
  | nil => simp [countDump]
  | cons e r ih => cases e <;> simp [countDump, ih] <;> omega

theorem countSplit_append (a b : List Event) :
    countSplit (a ++ b) = countSplit a + countSplit b := by
  induction a with
  | nil => simp [countSplit]
  | cons e r ih => cases e <;> simp [countSplit, ih] <;> omega

theorem opBalance_append (a b : List Event) :
    opBalance (a ++ b) = opBalance a + opBalance b := by
  induction a with
  | nil => simp [opBalance]
  | cons e r ih => cases e <;> simp [opBalance, ih] <;> omega

/-!  ## brainstorm.run_instruct  -/

/-- The body of `run_instruct` specialised to `auto_run=False` — the form in
which `run_instruct` recursively invokes itself on nested instructions
(`run_instruct(ins_, session, b_, False, **kwargs)`): with `auto_run` false
the expansion block is skipped, so the call is exactly operate + dump +
return the result.  `run_instruct_false_eq_runChild` below proves this
specialisation agrees with the general definition. -/
def runChild (oracle : Oracle) (ins : Instruct) (branch : Nat) (w : World) :
    PyVal × World :=
  let res := oracle ins
  (.res res, { w with trace := w.trace ++ [.operate branch ins, .dump branch] })

/-- `alcall(instructs, run)` inside `run_instruct`, where
`run = lambda ins_: run_instruct(ins_, session, session.split(branch), False)`:
fan out one forked branch per nested instruction, collect results in input
order. -/
def runChildren (oracle : Oracle) : List Instruct → Nat → World → List PyVal × World
  | [], _, w => ([], w)
  | i :: rest, parent, w =>
    let s := splitBranch parent w
    let r := runChild oracle i s.1 s.2
    let rs := runChildren oracle rest parent r.2
    (r.1 :: rs.1, rs.2)

/-- The flatten loop of `run_instruct`/`brainstorm`:
`for res in ress: response_.extend(res) if isinstance(res, list) else response_.append(res)`. -/
def flattenInto : List PyVal → List PyVal
  | [] => []
  | .list xs :: rest => xs ++ flattenInto rest
  | .res r :: rest => .res r :: flattenInto rest

/-- `run_instruct(ins, session, branch, auto_run, **kwargs)`.

Faithful to the source including its variable shadowing: after the flatten
loop `for res in ress`, the name `res` is bound to the LAST element of
`ress` (the loop variable shadows the operate result), and it is THAT value
which `response_.insert(0, res)` prepends — modelled by
`ress.getLastD (.res res)` (the default is unreachable: the expansion branch
requires `instructs ≠ []`, so `ress ≠ []`). -/
def run_instruct (oracle : Oracle) (ins : Instruct) (auto_run : Bool)
    (branch : Nat) (w : World) : PyVal × World :=
  let res := oracle ins
  let w := { w with trace := w.trace ++ [.operate branch ins, .dump branch] }
  let instructs := res.instruct_models.getD []
  if auto_run = true ∧ instructs ≠ [] then
    let rw := runChildren oracle instructs branch w
    let response := flattenInto rw.1
    let resShadow := rw.1.getLastD (.res res)
    (.list (resShadow :: response), rw.2)
  else
    (.res res, w)

/-- The `auto_run=False` instance of `run_instruct` is exactly `runChild`,
justifying the use of `runChild` for the recursive nested calls. -/
theorem run_instruct_false_eq_runChild (oracle : Oracle) (ins : Instruct)
    (branch : Nat) (w : World) :
    run_instruct oracle ins false branch w = runChild oracle ins branch w := by
  simp [run_instruct, runChild]

/-!  ## brainstorm and plan  -/

/-- The `instruct` argument of `brainstorm`/`plan`: an `InstructModel`, a
dict of valid parameters, or anything else (which must be rejected). -/
inductive InstructArg where
  | model (i : Instruct)
  | dict (i : Instruct)
  | other
deriving Repr, DecidableEq

/-- The type-validation prologue shared by `brainstorm` and `plan`:
`InstructModel` is `clean_dump`ed to a dict; a dict passes through; anything
else yields `none`, which the callers turn into the `ValueError`. -/
def instructToDict : InstructArg → Option Instruct
  | .model i => some i
  | .dict i => some i
  | .other => none

/-- Return value of `brainstorm`/`plan`: the payload alone, or paired with
the session when the code path honours `return_session`. -/
inductive OpOut where
  | plain (v : PyVal)
  | withSession (v : PyVal) (s : Session)
deriving Repr

/-- The payload of an `OpOut`. -/
def outVal : OpOut → PyVal
  | .plain v => v
  | .withSession v _ => v

/-- The payload of a successful run, `none` on an exception. -/
def resultVal : Except String OpOut → Option PyVal
  | .ok o => some (outVal o)
  | .error _ => none

/-- `true` iff the run returned without raising. -/
def isOk : Except String OpOut → Bool
  | .ok _ => true
  | .error _ => false

/-- Modelled from the spec: the brainstorm PROMPT template lives in
`src/lion/operations/brainstorm/prompt.py`, which is not under `src/`; only
its dependence on `num_instruct` is observable here. -/
def brainstormPrompt (num_instruct : Nat) : String :=
  "Please follow prompt and provide " ++ toString num_instruct ++ " instructions."

/-- Modelled from the spec: the plan PROMPT template lives in
`src/lion/operations/operations/plan/prompt.py`, which is not under `src/`;
only its dependence on `num_steps` is observable here. -/
def planPrompt (num_steps : Nat) : String :=
  "Please plan in " ++ toString num_steps ++ " steps."

/-- The guidance mangling of `brainstorm`:
`instruct["guidance"] = f"\n{PROMPT.format(num_instruct=num_instruct)}" + guidance`. -/
def mangleBrainstorm (i : Instruct) (num_instruct : Nat) : Instruct :=
  { i with guidance := "\n" ++ brainstormPrompt num_instruct ++ i.guidance }

/-- The guidance mangling of `plan`:
`instruct["guidance"] = f"\n{PROMPT.format(num_steps=num_steps)}\n{guidance}"`. -/
def manglePlan (i : Instruct) (num_steps : Nat) : Instruct :=
  { i with guidance := "\n" ++ planPrompt num_steps ++ "\n" ++ i.guidance }

/-- The session/branch prologue of `brainstorm` (lines 108-119), run BEFORE
the instruct-type validation:
* session given, branch ref given: `session.branches[branch]` — a lookup
  that raises if the id is not a member;
* session given, no branch: `session.new_branch(...)`;
* no session, branch object given: fresh session, `branches.include(branch)`;
* neither: fresh session, `session.new_branch(...)`. -/
def brainstormSetup (sessionOpt : Option Session) (branchOpt : Option Nat)
    (trace0 : List Event) : Except String (Nat × World) :=
  match sessionOpt with
  | some s =>
    match branchOpt with
    | some b =>
      if b ∈ s.branches then .ok (b, { session := s, trace := trace0 })
      else .error "ItemNotFoundError"
    | none =>
      let p := newBranch { session := s, trace := trace0 }
      .ok p
  | none =>
    match branchOpt with
    | some b =>
      .ok (b, { session := { branches := [b], nextId := b + 1 }, trace := trace0 })
    | none =>
      let p := newBranch { session := ⟨[], 0⟩, trace := trace0 }
      .ok p

/-- The fan-out of `brainstorm`:
`alcall(res1.instruct_models, run)` where
`run = lambda ins_: run_instruct(ins_, session, session.split(branch), auto_run)`
(`auto_run` is the flag `brainstorm` itself received, closed over by `run`). -/
def brainstormChildren (oracle : Oracle) :
    List Instruct → Bool → Nat → World → List PyVal × World
  | [], _, _, w => ([], w)
  | i :: rest, ar, parent, w =>
    let s := splitBranch parent w
    let r := run_instruct oracle i ar s.1 s.2
    let rs := brainstormChildren oracle rest ar parent r.2
    (r.1 :: rs.1, rs.2)

/-- `brainstorm(instruct, num_instruct, session, branch, auto_run,
branch_kwargs, return_session, ...)`.  The `async with session.branches`
region serialises registry mutation and has no further semantic effect in
this sequential embedding.  Note, faithful to the source: the initial
`branch.operate` (line 131) is NOT followed by a `logger.dump()`, and the
`auto_run=False` early return (line 144) ignores `return_session`. -/
def brainstorm (oracle : Oracle) (instruct : InstructArg) (num_instruct : Nat)
    (sessionOpt : Option Session) (branchOpt : Option Nat)
    (auto_run : Bool) (return_session : Bool) (trace0 : List Event) :
    Except String OpOut × World :=
  match brainstormSetup sessionOpt branchOpt trace0 with
  | .error e => (.error e, { session := sessionOpt.getD default, trace := trace0 })
  | .ok (branch, w) =>
    match instructToDict instruct with
    | none =>
      (.error "ValueError: instruct needs to be an InstructModel obj or a dictionary of valid parameters", w)
    | some i =>
      let ins1 := mangleBrainstorm i num_instruct
      let res1 := oracle ins1
      let w := { w with trace := w.trace ++ [.operate branch ins1] }
      if auto_run = false then
        (.ok (.plain (.res res1)), w)
      else
        match res1.instruct_models with
        | some instructs =>
          let rw := brainstormChildren oracle instructs auto_run branch w
          let response := PyVal.res res1 :: flattenInto rw.1
          if return_session then (.ok (.withSession (.list response) rw.2.session), rw.2)
          else (.ok (.plain (.list response)), rw.2)
        | none =>
          if return_session then (.ok (.withSession (.res res1) w.session), w)
          else (.ok (.plain (.res res1)), w)

/-- `plan.run_step(ins, session, branch, ...)`: operate on the shared
branch, flush the logger, return the result. -/
def run_step (oracle : Oracle) (ins : Instruct) (branch : Nat) (w : World) :
    PyVal × World :=
  let res := oracle ins
  (.res res, { w with trace := w.trace ++ [.operate branch ins, .dump branch] })

/-- The sequential step loop of `plan`: `for i, ins in enumerate(instructs):
res = await run_step(ins, session, branch); results.append(res)` — one step
after another, all on the same branch. -/
def planSteps (oracle : Oracle) : List Instruct → Nat → World → List PyVal × World
  | [], _, w => ([], w)
  | i :: rest, branch, w =>
    let r := run_step oracle i branch w
    let rs := planSteps oracle rest branch r.2
    (r.1 :: rs.1, rs.2)

/-- The session/branch prologue of `plan` (lines 76-77):
`session = session or Session(); branch = branch or session.new_branch(...)`.
A given branch is used directly (no membership lookup), so this prologue
cannot raise. -/
def planSetup (sessionOpt : Option Session) (branchOpt : Option Nat)
    (trace0 : List Event) : Nat × World :=
  let s := sessionOpt.getD ⟨[], 0⟩
  match branchOpt with
  | some b => (b, { session := s, trace := trace0 })
  | none => newBranch { session := s, trace := trace0 }

/-- `plan(instruct, num_steps, session, branch, auto_run, branch_kwargs,
return_session, ...)`.  Faithful to the source: the initial `branch.operate`
(line 89) is NOT followed by a `logger.dump()`; branch setup precedes the
instruct-type validation; `results = res1 if isinstance(res1, list) else
[res1]` — the oracle returns a structured object, never a Python list, so
the embedded `results` always starts as `[res1]`. -/
def plan (oracle : Oracle) (instruct : InstructArg) (num_steps : Nat)
    (sessionOpt : Option Session) (branchOpt : Option Nat)
    (auto_run : Bool) (return_session : Bool) (trace0 : List Event) :
    Except String OpOut × World :=
  let bw := planSetup sessionOpt branchOpt trace0
  let branch := bw.1
  match instructToDict instruct with
  | none =>
    (.error "ValueError: instruct needs to be an InstructModel object or a dictionary of valid parameters", bw.2)
  | some i =>
    let ins1 := manglePlan i num_steps
    let res1 := oracle ins1
    let w := { bw.2 with trace := bw.2.trace ++ [.operate branch ins1] }
    if auto_run = false then
      (if return_session then .ok (.withSession (.res res1) w.session)
       else .ok (.plain (.res res1)), w)
    else
      match res1.instruct_models with
      | some instructs =>
        let rw := planSteps oracle instructs branch w
        let results := PyVal.res res1 :: rw.1
        (if return_session then .ok (.withSession (.list results) rw.2.session)
         else .ok (.plain (.list results)), rw.2)
      | none =>
        (if return_session then .ok (.withSession (.list [.res res1]) w.session)
         else .ok (.plain (.list [.res res1])), w)

/-!  ## select  -/

/-- One element of a choice collection: a string, a `BaseModel` instance
(identified by its class name), a `BaseModel` subclass (by name), or an
unrelated object. -/
inductive Choice where
  | str (s : String)
  | inst (name : String)
  | cls (name : String)
  | other (tag : Nat)
deriving Repr, DecidableEq

/-- The `choices` argument of select: a list/tuple/set (listed), a dict, or
an `Enum` subclass (member name ↦ member value). -/
inductive Choices where
  | list (xs : List Choice)
  | dict (kvs : List (String × Choice))
  | enumType (kvs : List (String × Choice))
deriving Repr, DecidableEq

/-- Modelled from the spec: `is_same_dtype` from `lion.libs.parse` is not
under `src/`; it reports whether every element of the collection has the
tested type (trivially true of the empty collection).  Instance below:
tested against `str`. -/
def is_same_dtype_str (xs : List Choice) : Bool :=
  xs.all fun c => match c with | .str _ => true | _ => false

/-- Modelled from the spec: `is_same_dtype` tested against `BaseModel`
(instances; classes are not instances of `BaseModel`). -/
def is_same_dtype_model (xs : List Choice) : Bool :=
  xs.all fun c => match c with | .inst _ => true | _ => false

/-- `all(inspect.isclass(i) and issubclass(i, BaseModel) for i in choices)`. -/
def all_model_cls (xs : List Choice) : Bool :=
  xs.all fun c => match c with | .cls _ => true | _ => false

/-- The string content of a string choice (total on the `str` constructor). -/
def choiceStr : Choice → String
  | .str s => s
  | .inst n => n
  | .cls n => n
  | .other t => toString t

/-- `get_choice_representation`: a string maps to itself, a `BaseModel`
instance to its class name plus schema, an enum member to the
representation of its value; anything else falls off the end (`None`). -/
def get_choice_representation : Choice → Option String
  | .str s => some s
  | .inst n => some (n ++ ":\n<schema>")
  | .cls _ => none
  | .other _ => none

/-- `parse_to_representation(choices)`: normalise the choice collection into
parallel lists of keys and representations; a list that is neither
uniformly strings, nor uniformly `BaseModel` instances, nor uniformly
`BaseModel` subclasses reaches the trailing `raise NotImplementedError`. -/
def parse_to_representation :
    Choices → Except String (List String × List (Option String))
  | .list xs =>
    if is_same_dtype_str xs then
      .ok (xs.map choiceStr, xs.map (some ∘ choiceStr))
    else if is_same_dtype_model xs then
      let kvs := xs.map fun c => (choiceStr c, c)
      .ok (kvs.map Prod.fst, kvs.map (get_choice_representation ∘ Prod.snd))
    else if all_model_cls xs then
      let kvs := xs.map fun c => (choiceStr c, c)
      .ok (kvs.map Prod.fst, kvs.map (get_choice_representation ∘ Prod.snd))
    else
      .error "NotImplementedError"
  | .enumType kvs =>
    .ok (kvs.map Prod.fst, kvs.map (get_choice_representation ∘ Prod.snd))
  | .dict kvs =>
    .ok (kvs.map Prod.fst, kvs.map (get_choice_representation ∘ Prod.snd))

/-- One inner step of the Wagner-Fischer dynamic program: extend the new
row along the remaining `ys`, given the rest of the previous row from the
current column on, the diagonal entry, and the entry just computed. -/
def levRowGo (x : Char) : List Char → List Nat → Nat → Nat → List Nat
  | [], _, _, _ => []
  | y :: ys, prev, diag, left =>
    let up := prev.headD 0
    let cur := min (left + 1) (min (up + 1) (diag + (if x = y then 0 else 1)))
    cur :: levRowGo x ys (prev.tailD []) up cur

/-- Fold the rows of the Wagner-Fischer table over the characters of the
first word. -/
def levRows : List Char → List Char → List Nat → List Nat
  | [], _, row => row
  | x :: xs, ys, row =>
    let first := row.headD 0 + 1
    levRows xs ys (first :: levRowGo x ys (row.tailD []) (row.headD 0) first)

/-- Levenshtein edit distance on character lists (Wagner-Fischer). -/
def levenshtein (a b : List Char) : Nat :=
  (levRows a b (List.range (b.length + 1))).getLastD 0

/-- ASCII lower-casing of one character. -/
def lowerChar (c : Char) : Char :=
  if 65 ≤ c.toNat ∧ c.toNat ≤ 90 then Char.ofNat (c.toNat + 32) else c

/-- Case-insensitive edit distance between two strings. -/
def strDistance (a b : String) : Nat :=
  levenshtein (a.toList.map lowerChar) (b.toList.map lowerChar)

/-- Modelled from the spec: `string_similarity(word, candidates,
return_most_similar=True)` from `lion.libs.parse` is not under `src/`; the
spec pins only a closest-string-match policy, case-insensitive, ties broken
by the matcher's own (first-wins) order — realised here as the first
candidate of minimal edit distance. -/
def string_similarity (s : String) : List String → Option String
  | [] => none
  | c :: cs =>
    some (cs.foldl (fun best x =>
      if strDistance s x < strDistance s best then x else best) c)

/-- The value handed back for one corrected selection: the canonical string
key, or the dict value / enum member it names. -/
inductive Selected where
  | str (s : String)
  | choice (c : Choice)
deriving Repr, DecidableEq

/-- `parse_selection(selection_str, choices)`: rebuild the canonical key
set, nearest-match the raw token against it, then map the matched key back
to the dict value / enum member / canonical string. -/
def parse_selection (selection_str : String) : Choices → Except String Selected
  | ch =>
    let select_from : List String :=
      match ch with
      | .dict kvs => kvs.map Prod.fst
      | .enumType kvs => kvs.map Prod.fst
      | .list xs =>
        if is_same_dtype_model xs then xs.map choiceStr
        else if is_same_dtype_str xs then xs.map choiceStr
        else if all_model_cls xs then xs.map choiceStr
        else []
    if select_from = [] then
      .error "ValueError: The values provided for choice is not valid"
    else
      match string_similarity selection_str select_from with
      | none => .error "ValueError: The values provided for choice is not valid"
      | some selected =>
        match ch with
        | .dict kvs =>
          match kvs.find? (fun kv => kv.1 = selected) with
          | some kv => .ok (.choice kv.2)
          | none => .ok (.str selected)
        | .enumType kvs =>
          match kvs.find? (fun kv => kv.1 = selected) with
          | some kv => .ok (.choice kv.2)
          | none => .ok (.str selected)
        | .list _ => .ok (.str selected)

/-- The structured response model of select after correction. -/
structure SelectionModel where
  selected : List Selected
deriving Repr, DecidableEq

/-- The list comprehension
`[parse_selection(i, choices) for i in selected]`: left to right, the first
raised exception aborts the whole comprehension. -/
def parseSelections (choices : Choices) : List String → Except String (List Selected)
  | [] => .ok []
  | s :: rest =>
    match parse_selection s choices with
    | .error e => .error e
    | .ok v =>
      match parseSelections choices rest with
      | .error e => .error e
      | .ok vs => .ok (v :: vs)

/-- `SelectOperation.__call__(instruct, choices, ...)`.  `rawSelected` is
the `selected` list of the structured response the external call returns;
the second component counts the `branch.operate` calls performed.
`parse_to_representation` runs BEFORE the operate call, so a normalization
error leaves the count at zero. -/
def selectCall (choices : Choices) (rawSelected : List String) :
    Except String SelectionModel × Nat :=
  match parse_to_representation choices with
  | .error e => (.error e, 0)
  | .ok _ =>
    match parseSelections choices rawSelected with
    | .error e => (.error e, 1)
    | .ok corrected => (.ok ⟨corrected⟩, 1)

/-!  ## FunctionCalling.invoke  -/

/-- Modelled from the spec: `EventStatus` lives in `core/action/base.py`,
which is not under `src/`; `invoke` uses its `COMPLETED` and `FAILED`
members. -/
inductive EventStatus where
  | pending
  | completed
  | failed
deriving Repr, DecidableEq

/-- The data `invoke` consumes: the outcome of `_inner(**self.arguments)`
(the pre-processed, timed call of the wrapped function plus its
post-processing) — a result and elapsed time, or a raised exception's
string — and the optional `func_tool.parser`. -/
structure FunctionCalling (α : Type) where
  inner : Except String (α × Int)
  parser : Option (α → Except String α)

/-- The fields of the action that `invoke` assigns, plus its return value
(`ret = none` models the implicit `return None` of the except path). -/
structure InvokeResult (α : Type) where
  ret : Option α
  status : EventStatus
  execution_response : Option α
  execution_error : Option String
  execution_time : Option Int
deriving Repr

/-- `FunctionCalling.invoke`, with `startT`/`endT` the monotone event-loop
clock readings at entry and at the `except` handler.  On success the
response, elapsed time and `COMPLETED` status are stored before the parser
runs; a parser exception is caught by the same handler as an `_inner`
exception and overwrites status, error and time (the response survives). -/
def invoke {α : Type} (fc : FunctionCalling α) (startT endT : Int) :
    InvokeResult α :=
  match fc.inner with
  | .ok (result, elp) =>
    match fc.parser with
    | none =>
      { ret := some result, status := .completed, execution_response := some result,
        execution_error := none, execution_time := some elp }
    | some p =>
      match p result with
      | .ok r =>
        { ret := some r, status := .completed, execution_response := some result,
          execution_error := none, execution_time := some elp }
      | .error e =>
        { ret := none, status := .failed, execution_response := some result,
          execution_error := some e, execution_time := some (endT - startT) }
  | .error e =>
    { ret := none, status := .failed, execution_response := none,
      execution_error := some e, execution_time := some (endT - startT) }

/-!  ## System.update  -/

/-- The content note a `System` message holds: the system text and the
optional datetime entry. -/
structure SysContent where
  system : String
  system_datetime : Option String
deriving Repr, DecidableEq

/-- A `System` message's mutable fields. -/
structure SystemMsg where
  content : SysContent
  sender : String
  recipient : String
deriving Repr, DecidableEq

/-- Python truthiness of the `JsonValue`/sender/recipient arguments as
modelled here: `None` and the empty string are falsy. -/
def truthy : Option String → Bool
  | none => false
  | some s => s ≠ ""

/-- Modelled from the spec: `format_system_content` lives in
`lion/core/communication/utils.py`, which is not under `src/` (only its
tests are); per those tests the produced note maps `"system"` to the
message and contains `"system_datetime"` exactly when the datetime argument
is set. -/
def format_system_content (system_datetime : Option String)
    (system_message : String) : SysContent :=
  { system := system_message, system_datetime := system_datetime }

/-- Modelled from the spec: `validate_sender_recipient` lives in
`lion/core/communication/utils.py`, which is not under `src/` (only its
tests are); per those tests the valid roles and element ids pass through
unchanged (the invalid, non-string inputs are outside this model's input
space). -/
def validate_sender_recipient (s : String) : String := s

/-- `System.update(system, sender, recipient, system_datetime)`: each of
the three guarded assignments runs only when its argument is truthy. -/
def systemUpdate (m : SystemMsg) (system sender recipient : Option String)
    (system_datetime : Option String) : SystemMsg :=
  let m1 :=
    if truthy system then
      { m with content := format_system_content system_datetime (system.getD "") }
    else m
  let m2 :=
    if truthy sender then
      { m1 with sender := validate_sender_recipient (sender.getD "") }
    else m1
  if truthy recipient then
    { m2 with recipient := validate_sender_recipient (recipient.getD "") }
  else m2

/-!  ## Helper lemmas  -/

theorem run_instruct_no_expand (oracle : Oracle) (ins : Instruct) (ar : Bool)
    (b : Nat) (w : World) (h : (oracle ins).instruct_models.getD [] = []) :
    run_instruct oracle ins ar b w
      = (.res (oracle ins), { w with trace := w.trace ++ [.operate b ins, .dump b] }) := by
  simp [run_instruct, h]

theorem brainstormChildren_flat (oracle : Oracle) (subs : List Instruct) (ar : Bool)
    (parent : Nat) (w : World)
    (h : ∀ s ∈ subs, (oracle s).instruct_models.getD [] = []) :
    (brainstormChildren oracle subs ar parent w).1
        = subs.map (fun s => .res (oracle s)) ∧
    countSplit (brainstormChildren oracle subs ar parent w).2.trace
        = countSplit w.trace + subs.length := by
  induction subs generalizing w with
  | nil => simp [brainstormChildren]
  | cons i rest ih =>
    have hi : (oracle i).instruct_models.getD [] = [] := h i (by simp)
    have hrest : ∀ s ∈ rest, (oracle s).instruct_models.getD [] = [] :=
      fun s hs => h s (by simp [hs])
    simp only [brainstormChildren, splitBranch, run_instruct_no_expand _ _ _ _ _ hi]
    refine ⟨?_, ?_⟩
    · simp [(ih _ hrest).1]
    · rw [(ih _ hrest).2]
      simp [countSplit_append, countSplit]
      omega

theorem flattenInto_map_res (f : Instruct → OpRes) (xs : List Instruct) :
    flattenInto (xs.map fun s => .res (f s)) = xs.map fun s => .res (f s) := by
  induction xs with
  | nil => simp [flattenInto]
  | cons i rest ih => simp [flattenInto, ih]

theorem brainstormSetup_counts (so : Option Session) (bo : Option Nat)
    (t : List Event) (b : Nat) (w1 : World)
    (hsetup : brainstormSetup so bo t = .ok (b, w1)) :
    countSplit w1.trace = countSplit t ∧ countOp w1.trace = countOp t ∧
    countDump w1.trace = countDump t ∧ opBalance w1.trace = opBalance t := by
  cases so with
  | some s =>
    cases bo with
    | some b0 =>
      by_cases hb : b0 ∈ s.branches <;>
        simp [brainstormSetup, hb] at hsetup
      obtain ⟨-, h2⟩ := hsetup
      simp [← h2]
    | none =>
      simp [brainstormSetup, newBranch] at hsetup
      obtain ⟨-, h2⟩ := hsetup
      simp [← h2, countSplit_append, countOp_append, countDump_append,
        opBalance_append, countSplit, countOp, countDump, opBalance]
  | none =>
    cases bo with
    | some b0 =>
      simp [brainstormSetup] at hsetup
      obtain ⟨-, h2⟩ := hsetup
      simp [← h2]
    | none =>
      simp [brainstormSetup, newBranch] at hsetup
      obtain ⟨-, h2⟩ := hsetup
      simp [← h2, countSplit_append, countOp_append, countDump_append,
        opBalance_append, countSplit, countOp, countDump, opBalance]

theorem planSetup_counts (so : Option Session) (bo : Option Nat) (t : List Event) :
    countSplit (planSetup so bo t).2.trace = countSplit t ∧
    countOp (planSetup so bo t).2.trace = countOp t ∧
    countDump (planSetup so bo t).2.trace = countDump t ∧
    opBalance (planSetup so bo t).2.trace = opBalance t := by
  cases bo <;>
    simp [planSetup, newBranch, countSplit_append, countOp_append,
      countDump_append, opBalance_append, countSplit, countOp, countDump, opBalance]

theorem planSteps_spec (oracle : Oracle) (steps : List Instruct) (b : Nat) (w : World) :
    planSteps oracle steps b w
      = (steps.map (fun s => .res (oracle s)),
         { w with trace := w.trace ++ steps.flatMap (fun s => [.operate b s, .dump b]) }) := by
  induction steps generalizing w with
  | nil => simp [planSteps]
  | cons i rest ih => simp [planSteps, run_step, ih]

theorem runChildren_balance (oracle : Oracle) (subs : List Instruct)
    (parent : Nat) (w : World) :
    opBalance (runChildren oracle subs parent w).2.trace = opBalance w.trace := by
  induction subs generalizing w with
  | nil => simp [runChildren]
  | cons i rest ih =>
    simp [runChildren, runChild, splitBranch, ih, opBalance_append, opBalance]

theorem run_instruct_balance (oracle : Oracle) (ins : Instruct) (ar : Bool)
    (b : Nat) (w : World) :
    opBalance (run_instruct oracle ins ar b w).2.trace = opBalance w.trace := by
  by_cases h : ar = true ∧ (oracle ins).instruct_models.getD [] ≠ [] <;>
    simp [run_instruct, h, runChildren_balance, opBalance_append, opBalance]

theorem brainstormChildren_balance (oracle : Oracle) (subs : List Instruct)
    (ar : Bool) (parent : Nat) (w : World) :
    opBalance (brainstormChildren oracle subs ar parent w).2.trace
      = opBalance w.trace := by
  induction subs generalizing w with
  | nil => simp [brainstormChildren]
  | cons i rest ih =>
    simp [brainstormChildren, splitBranch, ih, run_instruct_balance,
      opBalance_append, opBalance]

theorem flatMap_opDump_balance (b : Nat) (steps : List Instruct) :
    opBalance (steps.flatMap (fun s => [.operate b s, .dump b])) = 0 := by
  induction steps with
  | nil => simp [opBalance]
  | cons i rest ih =>
    rw [List.flatMap_cons, opBalance_append, ih]
    simp [opBalance]

/-!  ## Claim theorems  -/

/-- A parent operate result (rid 10) carrying one nested instruction whose
own operate result is rid 20. -/
def oracleC1 : Oracle := fun ins =>
  if ins.iid = 0 then ⟨10, some [⟨1, "g"⟩]⟩ else ⟨20, none⟩

/-- C1: claimed — when `run_instruct` with `auto_run=True` expands a
non-empty nested-instruction list, the returned list's first element is the
parent operate result.  The code violates this: the flatten loop
`for res in ress` rebinds `res`, so `response_.insert(0, res)` prepends the
LAST nested result instead of the parent.  At this input the parent result
is rid 10 yet the returned list is `[rid 20, rid 20]` — the nested result
duplicated, the parent dropped. -/
theorem run_instruct_first_element_not_parent :
    (run_instruct oracleC1 ⟨0, ""⟩ true 0 ⟨⟨[0], 1⟩, []⟩).1
        = .list [.res ⟨20, none⟩, .res ⟨20, none⟩] ∧
    oracleC1 ⟨0, ""⟩ = ⟨10, some [⟨1, "g"⟩]⟩ :=
  ⟨rfl, rfl⟩

/-- An oracle whose every result carries no nested instructions. -/
def oracleStub : Oracle := fun _ => ⟨0, none⟩

/-- C2 counterexample: a completed `plan` call with `auto_run=False`
performs exactly one (the initial) operate call and zero logger dumps — the
initial operate is NOT followed by a flush, contradicting the claim that
every completed operate call is followed by exactly one
`branch.msgs.logger.dump()`. -/
theorem plan_initial_operate_without_dump :
    countOp (plan oracleStub (.dict ⟨0, ""⟩) 3 none none false false []).2.trace = 1 ∧
    countDump (plan oracleStub (.dict ⟨0, ""⟩) 3 none none false false []).2.trace = 0 ∧
    isOk (plan oracleStub (.dict ⟨0, ""⟩) 3 none none false false []).1 = true :=
  ⟨rfl, rfl, rfl⟩

/-- C2 (amended): every operate call performed through `run_instruct` or
`run_step` is followed by exactly one logger dump, while the initial
operate calls of `brainstorm` and `plan` are not flushed — so any run of
either operation that returns without raising leaves exactly one more
operate event than dump events in its trace (and a raising run adds none
of either). -/
theorem operate_dump_balance (oracle : Oracle) (ia : InstructArg) (num : Nat)
    (so : Option Session) (bo : Option Nat) (ar rs : Bool) (t : List Event) :
    opBalance (brainstorm oracle ia num so bo ar rs t).2.trace
      = opBalance t
        + (if isOk (brainstorm oracle ia num so bo ar rs t).1 then 1 else 0) ∧
    opBalance (plan oracle ia num so bo ar rs t).2.trace
      = opBalance t
        + (if isOk (plan oracle ia num so bo ar rs t).1 then 1 else 0) := by
  constructor
  · cases hsetup : brainstormSetup so bo t with
    | error e => simp [brainstorm, hsetup, isOk]
    | ok p =>
      obtain ⟨b, w1⟩ := p
      have hw1 := (brainstormSetup_counts so bo t b w1 hsetup).2.2.2
      cases ia with
      | other => simp [brainstorm, hsetup, instructToDict, isOk, hw1]
      | model i =>
        cases ar with
        | false =>
          simp [brainstorm, hsetup, instructToDict, isOk, opBalance_append,
            opBalance, hw1]
        | true =>
          cases hres : (oracle (mangleBrainstorm i num)).instruct_models with
          | none =>
            cases rs <;>
              simp [brainstorm, hsetup, instructToDict, hres, isOk,
                opBalance_append, opBalance, hw1]
          | some instructs =>
            cases rs <;>
              simp [brainstorm, hsetup, instructToDict, hres, isOk,
                brainstormChildren_balance, opBalance_append, opBalance, hw1]
      | dict i =>
        cases ar with
        | false =>
          simp [brainstorm, hsetup, instructToDict, isOk, opBalance_append,
            opBalance, hw1]
        | true =>
          cases hres : (oracle (mangleBrainstorm i num)).instruct_models with
          | none =>
            cases rs <;>
              simp [brainstorm, hsetup, instructToDict, hres, isOk,
                opBalance_append, opBalance, hw1]
          | some instructs =>
            cases rs <;>
              simp [brainstorm, hsetup, instructToDict, hres, isOk,
                brainstormChildren_balance, opBalance_append, opBalance, hw1]
  · have hp := (planSetup_counts so bo t).2.2.2
    cases ia with
    | other => simp [plan, instructToDict, isOk, hp]
    | model i =>
      cases ar with
      | false =>
        cases rs <;>
          simp [plan, instructToDict, isOk, opBalance_append, opBalance, hp]
      | true =>
        cases hres : (oracle (manglePlan i num)).instruct_models with
        | none =>
          cases rs <;>
            simp [plan, instructToDict, hres, isOk, opBalance_append,
              opBalance, hp]
        | some instructs =>
          cases rs <;>
            simp [plan, instructToDict, hres, isOk, planSteps_spec,
              opBalance_append, opBalance, flatMap_opDump_balance, hp]
    | dict i =>
      cases ar with
      | false =>
        cases rs <;>
          simp [plan, instructToDict, isOk, opBalance_append, opBalance, hp]
      | true =>
        cases hres : (oracle (manglePlan i num)).instruct_models with
        | none =>
          cases rs <;>
            simp [plan, instructToDict, hres, isOk, opBalance_append,
              opBalance, hp]
        | some instructs =>
          cases rs <;>
            simp [plan, instructToDict, hres, isOk, planSteps_spec,
              opBalance_append, opBalance, flatMap_opDump_balance, hp]

/-- An oracle for the C3 counterexample (never consulted before the raise). -/
def oracleC3 : Oracle := fun _ => ⟨0, none⟩

/-- C3 counterexample: `brainstorm` called with an `instruct` argument that
is neither an `InstructModel` nor a dict does raise a `ValueError`, but only
AFTER a branch has been created and registered in the session: the trace
already holds a `new_branch` event and the session's member set already
holds the branch when the error is raised — contradicting "no session-state
mutation precedes the validation error". -/
theorem brainstorm_branch_created_before_value_error :
    isOk (brainstorm oracleC3 .other 3 none none true false []).1 = false ∧
    (brainstorm oracleC3 .other 3 none none true false []).2.trace
        = [.newBranch 0] ∧
    (brainstorm oracleC3 .other 3 none none true false []).2.session.branches
        = [0] :=
  ⟨rfl, rfl, rfl⟩

/-- C3 (amended): an `instruct` argument that is neither an `InstructModel`
nor a dict makes `brainstorm` and `plan` raise before any `operate` call —
no external call is performed — but branch creation/registration may
precede the validation error. -/
theorem invalid_instruct_errors_before_operate (oracle : Oracle) (num : Nat)
    (so : Option Session) (bo : Option Nat) (ar rs : Bool) (t : List Event) :
    isOk (brainstorm oracle .other num so bo ar rs t).1 = false ∧
    countOp (brainstorm oracle .other num so bo ar rs t).2.trace = countOp t ∧
    isOk (plan oracle .other num so bo ar rs t).1 = false ∧
    countOp (plan oracle .other num so bo ar rs t).2.trace = countOp t := by
  refine ⟨?_, ?_, ?_, ?_⟩
  · cases hsetup : brainstormSetup so bo t with
    | error e => simp [brainstorm, hsetup, isOk]
    | ok p =>
      obtain ⟨b, w1⟩ := p
      simp [brainstorm, hsetup, instructToDict, isOk]
  · cases hsetup : brainstormSetup so bo t with
    | error e => simp [brainstorm, hsetup]
    | ok p =>
      obtain ⟨b, w1⟩ := p
      simp [brainstorm, hsetup, instructToDict,
        (brainstormSetup_counts so bo t b w1 hsetup).2.1]
  · simp [plan, instructToDict, isOk]
  · simp [plan, instructToDict, (planSetup_counts so bo t).2.1]

/-- C4: a `brainstorm` call with `auto_run=True` whose initial operate
result exposes the nested instructions `subs`, each of which resolves with
no further nesting, returns the flattened list headed by the initial result
followed by the sub-results in input order, and forks exactly one branch
per nested instruction (`session.split` once each). -/
theorem brainstorm_auto_run_flattens (oracle : Oracle) (i : Instruct) (num : Nat)
    (so : Option Session) (bo : Option Nat) (rs : Bool) (t : List Event)
    (b : Nat) (w1 : World) (subs : List Instruct)
    (hsetup : brainstormSetup so bo t = .ok (b, w1))
    (hsubs : (oracle (mangleBrainstorm i num)).instruct_models = some subs)
    (hflat : ∀ s ∈ subs, (oracle s).instruct_models.getD [] = []) :
    resultVal (brainstorm oracle (.dict i) num so bo true rs t).1
      = some (.list (.res (oracle (mangleBrainstorm i num))
                      :: subs.map fun s => .res (oracle s))) ∧
    countSplit (brainstorm oracle (.dict i) num so bo true rs t).2.trace
      = countSplit t + subs.length := by
  have hsc := (brainstormSetup_counts so bo t b w1 hsetup).1
  have hch := brainstormChildren_flat oracle subs true b
      { w1 with trace := w1.trace ++ [.operate b (mangleBrainstorm i num)] } hflat
  cases rs <;>
    simp [brainstorm, hsetup, instructToDict, hsubs, resultVal, outVal,
      hch.1, hch.2, flattenInto_map_res, countSplit_append, countSplit, hsc]

/-- Initial result rid 10 with two nested instructions; their results are
rid 11 and rid 12, carrying no further nesting. -/
def oracleC4w : Oracle := fun ins =>
  if ins.iid = 0 then ⟨10, some [⟨1, ""⟩, ⟨2, ""⟩]⟩
  else if ins.iid = 1 then ⟨11, none⟩ else ⟨12, none⟩

/-- C4 witness: `num_instruct=2`, two nested instructions each resolving
plainly — result is `[initial, sub1, sub2]` and exactly 2 forks occur. -/
theorem brainstorm_auto_run_flattens_witness :
    resultVal (brainstorm oracleC4w (.dict ⟨0, ""⟩) 2 none none true false []).1
      = some (.list [.res ⟨10, some [⟨1, ""⟩, ⟨2, ""⟩]⟩,
                     .res ⟨11, none⟩, .res ⟨12, none⟩]) ∧
    countSplit (brainstorm oracleC4w (.dict ⟨0, ""⟩) 2 none none true false []).2.trace
      = 2 := by
  have h := brainstorm_auto_run_flattens oracleC4w ⟨0, ""⟩ 2 none none false []
      0 ⟨⟨[0], 1⟩, [.newBranch 0]⟩ [⟨1, ""⟩, ⟨2, ""⟩] rfl rfl (by decide)
  exact ⟨h.1, h.2⟩

/-- C5: a `brainstorm` call with `auto_run=False` returns exactly the
result of the single initial operate call (whatever `return_session` is)
and performs zero forks. -/
theorem brainstorm_no_auto_run_single (oracle : Oracle) (i : Instruct) (num : Nat)
    (so : Option Session) (bo : Option Nat) (rs : Bool) (t : List Event)
    (b : Nat) (w1 : World)
    (hsetup : brainstormSetup so bo t = .ok (b, w1)) :
    (brainstorm oracle (.dict i) num so bo false rs t).1
      = .ok (.plain (.res (oracle (mangleBrainstorm i num)))) ∧
    countSplit (brainstorm oracle (.dict i) num so bo false rs t).2.trace
      = countSplit t := by
  have hsc := (brainstormSetup_counts so bo t b w1 hsetup).1
  simp [brainstorm, hsetup, instructToDict, countSplit_append, countSplit, hsc]

/-- An oracle whose single result is rid 7 with no nested instructions. -/
def oracleC5w : Oracle := fun _ => ⟨7, none⟩

/-- C5 witness: with `auto_run=False` the returned value is the initial
operate result alone and the trace holds no fork event. -/
theorem brainstorm_no_auto_run_single_witness :
    (brainstorm oracleC5w (.dict ⟨0, ""⟩) 3 none none false false []).1
      = .ok (.plain (.res ⟨7, none⟩)) ∧
    countSplit (brainstorm oracleC5w (.dict ⟨0, ""⟩) 3 none none false false []).2.trace
      = 0 := by
  have h := brainstorm_no_auto_run_single oracleC5w ⟨0, ""⟩ 3 none none false []
      0 ⟨⟨[0], 1⟩, [.newBranch 0]⟩ rfl
  exact ⟨h.1, h.2⟩

/-- C6: a `plan` call with `auto_run=True` whose initial operate result
carries exactly `num_steps` nested instructions (the stub results
thereafter carrying none) returns the ordered list of length
`1 + num_steps` — initial result first, step results following in input
order — and the trace shows the steps executed one after another, all on
the single shared branch. -/
theorem plan_runs_steps_sequentially (oracle : Oracle) (i : Instruct)
    (num_steps : Nat) (so : Option Session) (bo : Option Nat) (rs : Bool)
    (t : List Event) (steps : List Instruct)
    (hsteps : (oracle (manglePlan i num_steps)).instruct_models = some steps)
    (hlen : steps.length = num_steps)
    (hstub : ∀ s ∈ steps, (oracle s).instruct_models.getD [] = []) :
    resultVal (plan oracle (.dict i) num_steps so bo true rs t).1
      = some (.list (.res (oracle (manglePlan i num_steps))
                      :: steps.map fun s => .res (oracle s))) ∧
    (PyVal.res (oracle (manglePlan i num_steps))
        :: steps.map fun s => .res (oracle s)).length = 1 + num_steps ∧
    (plan oracle (.dict i) num_steps so bo true rs t).2.trace
      = (planSetup so bo t).2.trace
        ++ .operate (planSetup so bo t).1 (manglePlan i num_steps)
          :: steps.flatMap (fun s =>
              [.operate (planSetup so bo t).1 s, .dump (planSetup so bo t).1]) := by
  refine ⟨?_, ?_, ?_⟩
  · cases rs <;>
      simp [plan, instructToDict, hsteps, planSteps_spec, resultVal, outVal]
  · simp [hlen]
    omega
  · cases rs <;> simp [plan, instructToDict, hsteps, planSteps_spec]

/-- Initial result rid 30 with three nested step instructions; the step
results are rid 31, 32, 33, carrying no nesting. -/
def oracleC6w : Oracle := fun ins =>
  if ins.iid = 0 then ⟨30, some [⟨1, ""⟩, ⟨2, ""⟩, ⟨3, ""⟩]⟩
  else ⟨30 + ins.iid, none⟩

/-- C6 witness: `num_steps=3`, three nested instructions — the result list
has length 4 in input order and all operate events hit branch 0, each step
in sequence. -/
theorem plan_runs_steps_sequentially_witness :
    resultVal (plan oracleC6w (.dict ⟨0, ""⟩) 3 none none true false []).1
      = some (.list [.res ⟨30, some [⟨1, ""⟩, ⟨2, ""⟩, ⟨3, ""⟩]⟩,
                     .res ⟨31, none⟩, .res ⟨32, none⟩, .res ⟨33, none⟩]) ∧
    (plan oracleC6w (.dict ⟨0, ""⟩) 3 none none true false []).2.trace
      = [.newBranch 0, .operate 0 (manglePlan ⟨0, ""⟩ 3),
         .operate 0 ⟨1, ""⟩, .dump 0, .operate 0 ⟨2, ""⟩, .dump 0,
         .operate 0 ⟨3, ""⟩, .dump 0] := by
  have h := plan_runs_steps_sequentially oracleC6w ⟨0, ""⟩ 3 none none false []
      [⟨1, ""⟩, ⟨2, ""⟩, ⟨3, ""⟩] rfl rfl (by decide)
  exact ⟨h.1, h.2.2⟩

/-- C7: select given the string choices `["red", "green", "blue"]` and a
structured response whose `selected` list is `["gren"]` corrects the raw
token to its closest canonical choice: the returned `SelectionModel` has
`selected = ["green"]`, after the one operate call. -/
theorem select_corrects_typo_to_nearest :
    selectCall (.list [.str "red", .str "green", .str "blue"]) ["gren"]
      = (.ok ⟨[.str "green"]⟩, 1) := by
  rfl

/-- C8: whenever the choice collection cannot be normalized into uniform
(key, representation) pairs — `parse_to_representation` raises — the
select call surfaces that normalization error and performs zero
`branch.operate` calls. -/
theorem select_normalization_error_no_operate (choices : Choices)
    (raw : List String) (e : String)
    (h : parse_to_representation choices = .error e) :
    selectCall choices raw = (.error e, 0) := by
  simp [selectCall, h]

/-- C8 witness: a list mixing a string with an unrelated object fails
normalization, and select raises it with zero operate calls. -/
theorem select_normalization_error_no_operate_witness :
    parse_to_representation (.list [.str "red", .other 0])
        = .error "NotImplementedError" ∧
    selectCall (.list [.str "red", .other 0]) ["x"]
        = (.error "NotImplementedError", 0) :=
  ⟨rfl, select_normalization_error_no_operate _ _ _ rfl⟩

/-- C9: when the wrapped function (or its pre/post-processing, i.e. the
`_inner` call) raises, `invoke` does not propagate the exception: it
returns `None`, sets the status to `FAILED`, stores the exception's string
form in `execution_error`, and records the non-negative elapsed time
`endT - startT` read off the monotone event-loop clock. -/
theorem invoke_failure_no_propagation {α : Type} (fc : FunctionCalling α)
    (startT endT : Int) (e : String)
    (hfail : fc.inner = .error e) (hclock : startT ≤ endT) :
    (invoke fc startT endT).ret = none ∧
    (invoke fc startT endT).status = .failed ∧
    (invoke fc startT endT).execution_error = some e ∧
    (invoke fc startT endT).execution_time = some (endT - startT) ∧
    0 ≤ endT - startT := by
  refine ⟨?_, ?_, ?_, ?_, ?_⟩ <;> simp [invoke, hfail] <;> omega

/-- C9 witness: a concrete failing call at clock readings 0 and 5. -/
theorem invoke_failure_no_propagation_witness :
    (invoke (⟨.error "boom", none⟩ : FunctionCalling Nat) 0 5).ret = none ∧
    (invoke (⟨.error "boom", none⟩ : FunctionCalling Nat) 0 5).status = .failed ∧
    (invoke (⟨.error "boom", none⟩ : FunctionCalling Nat) 0 5).execution_error
        = some "boom" ∧
    (invoke (⟨.error "boom", none⟩ : FunctionCalling Nat) 0 5).execution_time
        = some 5 ∧
    (0 : Int) ≤ 5 - 0 := by
  have h := invoke_failure_no_propagation
      (⟨.error "boom", none⟩ : FunctionCalling Nat) 0 5 "boom" rfl (by norm_num)
  exact ⟨h.1, h.2.1, h.2.2.1, h.2.2.2.1, h.2.2.2.2⟩

/-- C10: `System.update` with all arguments `None` (or falsy) leaves
content, sender and recipient unchanged; in general each of the three
fields is modified only when the corresponding argument is truthy (and set
to the formatted/validated value exactly when it is), the other fields
staying untouched. -/
theorem system_update_frame (m : SystemMsg)
    (system sender recipient dt : Option String) :
    systemUpdate m none none none dt = m ∧
    (truthy system = false →
      (systemUpdate m system sender recipient dt).content = m.content) ∧
    (truthy sender = false →
      (systemUpdate m system sender recipient dt).sender = m.sender) ∧
    (truthy recipient = false →
      (systemUpdate m system sender recipient dt).recipient = m.recipient) ∧
    (truthy system = true →
      (systemUpdate m system sender recipient dt).content
        = format_system_content dt (system.getD "")) ∧
    (truthy sender = true →
      (systemUpdate m system sender recipient dt).sender
        = validate_sender_recipient (sender.getD "")) ∧
    (truthy recipient = true →
      (systemUpdate m system sender recipient dt).recipient
        = validate_sender_recipient (recipient.getD "")) := by
  have truthy_none : truthy none = false := rfl
  cases hs : truthy system <;> cases hn : truthy sender <;>
    cases hr : truthy recipient <;>
      simp [systemUpdate, truthy_none, hs, hn, hr]

/-- C10 witness: a concrete message updated with all-`None` arguments keeps
every field; a falsy (empty-string) sender and a truthy recipient change
only the recipient. -/
theorem system_update_frame_witness :
    systemUpdate ⟨⟨"sys", none⟩, "user", "assistant"⟩ none none none none
        = ⟨⟨"sys", none⟩, "user", "assistant"⟩ ∧
    (systemUpdate ⟨⟨"sys", none⟩, "user", "assistant"⟩
        none (some "") (some "other") none).sender = "user" ∧
    (systemUpdate ⟨⟨"sys", none⟩, "user", "assistant"⟩
        none (some "") (some "other") none).recipient = "other" := by
  have h := system_update_frame ⟨⟨"sys", none⟩, "user", "assistant"⟩
      none (some "") (some "other") none
  exact ⟨h.1, h.2.2.1 (by decide), h.2.2.2.2.2.2 (by decide)⟩

end LionOS
